import Mathlib

/-!
# Verification of the friendly_fire data pipeline

Shallow embedding of the data-reconciliation components of the
`tmwileman/friendly_fire` repository:

* `src/api/omdb_client.py` — the metadata resolver (`OMDBClient.search_movie`,
  `OMDBClient._query_omdb`, `OMDBClient.search_movies_batch`) with its
  strategy ladder and in-memory cache;
* `src/utils/merge_ratings.py` — the fuzzy rating merger (`RatingMerger`),
  including a faithful embedding of `difflib.SequenceMatcher.ratio`;
* `src/scrapers/data_cleaner.py` — the episode data cleaner
  (`EpisodeDataCleaner._parse_titles`, `_clean_episode_names`,
  `_extract_years`), embedded row-wise.

Modelling conventions:

* Python strings are `String`; `str.strip`, `str.split`, `str.lower` and
  friends are modelled over their ASCII behaviour (every string appearing in
  the repository's data path is ASCII; Python's unicode-aware variants agree
  with the ASCII ones there).
* Python dicts whose keys may be absent are modelled with `Option`-valued
  fields (`none` = key absent).
* The network is an explicit oracle `env : String → Option String →
  Except Unit OmdbData`; `Except.error` models a raised
  `requests.RequestException` (or JSON decode failure).  Exceptions are
  propagated with `Except`.
* Rational numbers (`ℚ`) stand for Python floats; every float produced by
  this code path is a small exact ratio, so no rounding is involved in the
  comparisons the code performs.
-/

namespace FriendlyFire

/-! ## Python string primitives -/

/-- The whitespace characters recognised by `str.strip` / `str.split`
(ASCII fragment): space, tab, newline, carriage return, vertical tab,
form feed. -/
def pyWhitespace : List Char :=
  [' ', Char.ofNat 9, Char.ofNat 10, Char.ofNat 13, Char.ofNat 11, Char.ofNat 12]

def pyIsSpace (c : Char) : Bool := pyWhitespace.contains c

/-- Python `str.strip()`: drop leading and trailing whitespace. -/
def pyStrip (s : String) : String :=
  String.mk (((s.data.dropWhile pyIsSpace).reverse.dropWhile pyIsSpace).reverse)

def pySplitWSAux : List Char → List Char → List String
  | [], cur => if cur.isEmpty then [] else [String.mk cur.reverse]
  | c :: rest, cur =>
    if pyIsSpace c then
      if cur.isEmpty then pySplitWSAux rest []
      else String.mk cur.reverse :: pySplitWSAux rest []
    else pySplitWSAux rest (c :: cur)

/-- Python `str.split()` with no separator: split on whitespace runs,
discarding empty pieces. -/
def pySplitWS (s : String) : List String := pySplitWSAux s.data []

/-- Python `str.lower()` (ASCII fragment). -/
def pyLower (s : String) : String := String.mk (s.data.map Char.toLower)

/-- Python `s.startswith(p)`. -/
def strStartsWith (s p : String) : Bool := s.data.take p.data.length = p.data

/-- Python `sep.join(xs)`. -/
def joinWith (sep : String) : List String → String
  | [] => ""
  | [x] => x
  | x :: y :: rest => x ++ sep ++ joinWith sep (y :: rest)

/-- Remove every occurrence of the given characters; `removeChars [c] s`
is Python `s.replace(c, '')`. -/
def removeChars (cs : List Char) (s : String) : String :=
  String.mk (s.data.filter (fun c => !cs.contains c))

/-! ## OMDB client (`src/api/omdb_client.py`)

`OmdbData` models the decoded JSON response of the OMDB API; `response`
is `data.get('Response')` and `imdbID` is the `'imdbID'` entry (`none` =
key absent).  `title`/`year` carry the payload so that distinct movies
are distinct records. -/

structure OmdbData where
  response : Option String
  imdbID : Option String
  title : Option String
  year : Option String
deriving DecidableEq, Repr

/-- The network/JSON oracle: one HTTP GET of the OMDB endpoint for a
`t=` title and an optional `y=` year parameter.  `Except.error` models a
raised `requests.RequestException` (or malformed JSON). -/
abbrev OmdbEnv := String → Option String → Except Unit OmdbData

/-- Nonempty and all ASCII digits: Python `str.isdigit()` on the strings
this pipeline produces. -/
def isDigitStr (s : String) : Bool := !s.data.isEmpty && s.data.all Char.isDigit

/-- The `y=` query parameter computed by `OMDBClient._query_omdb`:

    if year:
        year_clean = str(year).split()[0]
        if year_clean.isdigit():
            params['y'] = year_clean

`none`/`""` years are falsy and skip the block entirely; a whitespace-only
truthy year raises `IndexError` on `split()[0]` (modelled as `.error`). -/
def yearParamE : Option String → Except Unit (Option String)
  | none => .ok none
  | some y =>
    if y = "" then .ok none
    else
      match pySplitWS y with
      | [] => .error ()
      | tok :: _ => .ok (if isDigitStr tok then some tok else none)

/-- `OMDBClient._query_omdb`: one live query.  A response with
`Response == 'False'` or without an `imdbID` key yields `None`; any
transport error propagates (`raise`). -/
def query_omdb (env : OmdbEnv) (title : String) (year : Option String) :
    Except Unit (Option OmdbData) :=
  match yearParamE year with
  | .error e => .error e
  | .ok yp =>
    match env title yp with
    | .error e => .error e
    | .ok data =>
      if data.response = some "False" then .ok none
      else if data.imdbID = none then .ok none
      else .ok (some data)

/-- Python truthiness of the optional `year` argument. -/
def yearTruthy : Option String → Bool
  | some y => !y.data.isEmpty
  | none => false

/-- `' '.join(title.split())` — whitespace normalization of the title. -/
def cleanedTitle (title : String) : String :=
  joinWith " " (pySplitWS title)

/-- The strategy ladder assembled by `OMDBClient.search_movie`:
1. `(title, year)` as given;
2. `(title, None)` if a truthy year was given;
3. `(cleaned_title, year)` if whitespace normalization changed the title;
4. `(cleaned_title, None)` if both of the above. -/
def searchStrategies (title : String) (year : Option String) :
    List (String × Option String) :=
  [(title, year)]
    ++ (if yearTruthy year then [(title, (none : Option String))] else [])
    ++ (if cleanedTitle title ≠ title then
          [(cleanedTitle title, year)]
            ++ (if yearTruthy year then [(cleanedTitle title, (none : Option String))] else [])
        else [])

/-- The `for search_title, search_year in search_strategies` loop: stop at
the first strategy whose query returns a record.  Returns the result
together with the number of live `_query_omdb` calls made. -/
def runLadder (env : OmdbEnv) :
    List (String × Option String) → Except Unit (Option OmdbData × Nat)
  | [] => .ok (none, 0)
  | (t, y) :: rest =>
    match query_omdb env t y with
    | .error e => .error e
    | .ok (some d) => .ok (some d, 1)
    | .ok none =>
      match runLadder env rest with
      | .error e => .error e
      | .ok (res, n) => .ok (res, n + 1)

/-- The client's `self._cache` dict: an association list where insertion
shadows (dict assignment). -/
abbrev Cache := List (String × Option OmdbData)

def lookupCache (k : String) : Cache → Option (Option OmdbData)
  | [] => none
  | (k', v) :: rest => if k' = k then some v else lookupCache k rest

def insertCache (k : String) (v : Option OmdbData) (c : Cache) : Cache :=
  (k, v) :: c

/-- `cache_key = f"{title}:{year or 'no_year'}"` (an absent or empty year
is falsy and yields `no_year`). -/
def cacheKey (title : String) (year : Option String) : String :=
  title ++ ":" ++ (match year with
    | some y => if y = "" then "no_year" else y
    | none => "no_year")

/-- Ladder run plus the unconditional cache write
`self._cache[cache_key] = result`. -/
def searchFresh (env : OmdbEnv) (cache : Cache) (title : String)
    (year : Option String) :
    Except Unit (Option OmdbData × Cache × Nat) :=
  match runLadder env (searchStrategies title year) with
  | .error e => .error e
  | .ok (result, n) => .ok (result, insertCache (cacheKey title year) result cache, n)

/-- `OMDBClient.search_movie`: cache lookup, strategy ladder, cache write.
The returned `Nat` counts live `_query_omdb` calls. -/
def search_movie (env : OmdbEnv) (cache : Cache) (title : String)
    (year : Option String) (use_cache : Bool) :
    Except Unit (Option OmdbData × Cache × Nat) :=
  if use_cache then
    match lookupCache (cacheKey title year) cache with
    | some v => .ok (v, cache, 0)
    | none => searchFresh env cache title year
  else searchFresh env cache title year

/-- The per-item loop of `OMDBClient.search_movies_batch`: any exception
from one item becomes a `None` in that slot (`except Exception`) and the
loop continues; a failed item leaves the cache untouched. -/
def batchLoop (env : OmdbEnv) :
    List (String × Option String) → Cache → List (Option OmdbData) × Cache
  | [], c => ([], c)
  | (t, y) :: rest, c =>
    match search_movie env c t y true with
    | .ok (r, c', _) =>
      let (rs, c2) := batchLoop env rest c'
      (r :: rs, c2)
    | .error _ =>
      let (rs, c2) := batchLoop env rest c
      ((none : Option OmdbData) :: rs, c2)

/-- `OMDBClient.search_movies_batch`.  The `ValueError` for a truthy years
list of mismatched length is the `.error` case; a `years` of `None` is
expanded to `[None] * len(titles)`; `zip` truncates as in Python. -/
def search_movies_batch (env : OmdbEnv) (cache : Cache) (titles : List String)
    (years : Option (List String)) :
    Except String (List (Option OmdbData) × Cache) :=
  match years with
  | some ys =>
    if ¬ ys.isEmpty ∧ ys.length ≠ titles.length then
      .error "Years list must match length of titles list"
    else .ok (batchLoop env (titles.zip (ys.map some)) cache)
  | none =>
    .ok (batchLoop env (titles.zip (titles.map (fun _ => (none : Option String)))) cache)

/-! ## `difflib.SequenceMatcher` (used by `RatingMerger.fuzzy_match_score`)

`SequenceMatcher(None, a, b)` with no junk predicate: `bjunk` is empty, so
the junk extension loops of `find_longest_match` are no-ops and `isbjunk`
is constantly false; the autojunk purge of popular elements of `b` (only
when `len(b) >= 200`) is modelled in `b2j`. -/

/-- Positions of `c` in `b`, ascending: the `b2j` table before the
autojunk purge. -/
def b2jAll (b : List Char) (c : Char) : List Nat :=
  (List.range b.length).filter (fun j => b.get? j = some c)

/-- `b2j` after the autojunk purge: for `len(b) >= 200`, elements occurring
more than `len(b) // 100 + 1` times are dropped. -/
def b2j (b : List Char) (c : Char) : List Nat :=
  let idxs := b2jAll b c
  if b.length ≥ 200 ∧ idxs.length > b.length / 100 + 1 then [] else idxs

/-- `j2len.get(j, 0)` on the association list modelling the dict. -/
def lookupJ (l : List (Nat × Nat)) (j : Nat) : Nat :=
  match l.find? (fun p => p.1 == j) with
  | some p => p.2
  | none => 0

/-- State of `find_longest_match`: `besti, bestj, bestsize`. -/
structure FLM where
  besti : Nat
  bestj : Nat
  bestsize : Nat
deriving Repr, DecidableEq

/-- Inner loop of `find_longest_match` over the `b` positions of `a[i]`
(already filtered to `blo <= j < bhi`); `prev` is the previous row's
`j2len`, the returned list is `newj2len`.  `j2len.get(j-1, 0)` at `j = 0`
looks up the absent key `-1`, hence the explicit zero. -/
def flmInner (prev : List (Nat × Nat)) (i : Nat) :
    List Nat → List (Nat × Nat) → FLM → List (Nat × Nat) × FLM
  | [], acc, st => (acc, st)
  | j :: js, acc, st =>
    let k := (if j = 0 then 0 else lookupJ prev (j - 1)) + 1
    let st := if k > st.bestsize then ⟨i + 1 - k, j + 1 - k, k⟩ else st
    flmInner prev i js ((j, k) :: acc) st

/-- Outer loop of `find_longest_match` over `i in range(alo, ahi)`. -/
def flmOuter (a b : List Char) (blo bhi : Nat) :
    List Nat → List (Nat × Nat) → FLM → FLM
  | [], _, st => st
  | i :: rest, prev, st =>
    let c := a.getD i (Char.ofNat 0)
    let js := (b2j b c).filter (fun j => decide (blo ≤ j) && decide (j < bhi))
    let (newmap, st') := flmInner prev i js [] st
    flmOuter a b blo bhi rest newmap st'

/-- Left extension loop (`isbjunk` is constantly false): while the block
can grow leftwards over equal elements, grow it.  Structural fuel bounds
the (already bounded) descent. -/
def extLeft (a b : List Char) (alo blo : Nat) :
    Nat → Nat → Nat → Nat → Nat × Nat × Nat
  | 0, besti, bestj, bestsize => (besti, bestj, bestsize)
  | fuel + 1, besti, bestj, bestsize =>
    if alo < besti ∧ blo < bestj ∧
        (a.get? (besti - 1)).isSome ∧ a.get? (besti - 1) = b.get? (bestj - 1) then
      extLeft a b alo blo fuel (besti - 1) (bestj - 1) (bestsize + 1)
    else (besti, bestj, bestsize)

/-- Right extension loop, mirror of `extLeft`. -/
def extRight (a b : List Char) (ahi bhi : Nat) :
    Nat → Nat → Nat → Nat → Nat
  | 0, _, _, bestsize => bestsize
  | fuel + 1, besti, bestj, bestsize =>
    if besti + bestsize < ahi ∧ bestj + bestsize < bhi ∧
        (a.get? (besti + bestsize)).isSome ∧
        a.get? (besti + bestsize) = b.get? (bestj + bestsize) then
      extRight a b ahi bhi fuel besti bestj (bestsize + 1)
    else bestsize

/-- `SequenceMatcher.find_longest_match(alo, ahi, blo, bhi)` with no junk:
dynamic-programming scan, then extension on both sides. -/
def find_longest_match (a b : List Char) (alo ahi blo bhi : Nat) :
    Nat × Nat × Nat :=
  let st := flmOuter a b blo bhi ((List.range (ahi - alo)).map (· + alo)) [] ⟨alo, blo, 0⟩
  let (i, j, k) := extLeft a b alo blo st.besti st.besti st.bestj st.bestsize
  (i, j, extRight a b ahi bhi (ahi + 1) i j k)

/-- Total size of the matching blocks of `get_matching_blocks`, computed by
the recursive divide-and-conquer around each longest match.  The structural
fuel `|a| + |b| + 1` dominates the recursion depth: every recursive call
strictly shrinks `(ahi - alo) + (bhi - blo)` because the found block is
nonempty. -/
def matchingSum (a b : List Char) : Nat → Nat → Nat → Nat → Nat → Nat
  | 0, _, _, _, _ => 0
  | fuel + 1, alo, ahi, blo, bhi =>
    let (i, j, k) := find_longest_match a b alo ahi blo bhi
    if k = 0 then 0
    else matchingSum a b fuel alo i blo j + k + matchingSum a b fuel (i + k) ahi (j + k) bhi

/-- `SequenceMatcher(None, a, b).ratio()`: `2 * M / (len(a) + len(b))`,
and `1.0` when both are empty.  Python's float division is the exact
rational here (`mkRat` keeps the definition kernel-computable; it equals
`(2 * M : ℚ) / (la + lb)`). -/
def ratioOf (a b : String) : ℚ :=
  let la := a.length
  let lb := b.length
  if la + lb = 0 then 1
  else mkRat (2 * matchingSum a.data b.data (la + lb + 1) 0 la 0 lb) (la + lb)

/-! ## Rating merger (`src/utils/merge_ratings.py`) -/

/-- Does the regex `\s*\(\d{4}\).*$` of `clean_title` match with its
parenthesis at position `j`?  Requires `(`, four digits, `)`, and a tail
that `.*$` can consume: no newline except possibly as the final
character (`.` does not match newlines; `$` also matches just before a
final newline). -/
def cleanMatchAt (cs : List Char) (j : Nat) : Bool :=
  match cs.drop j with
  | '(' :: d1 :: d2 :: d3 :: d4 :: ')' :: rest =>
    d1.isDigit && d2.isDigit && d3.isDigit && d4.isDigit &&
      !(rest.dropLast.contains (Char.ofNat 10))
  | _ => false

/-- `RatingMerger.clean_title`: `re.sub(r'\s*\(\d{4}\).*$', '', title).strip()`.
The leftmost match cuts the string just before the first matchable
`(dddd)`; the whitespace consumed by `\s*` is removed by the final
`strip()` either way. -/
def clean_title (title : String) : String :=
  if title = "" then ""
  else
    match (List.range title.data.length).find? (fun j => cleanMatchAt title.data j) with
    | some j => pyStrip (String.mk (title.data.take j))
    | none => pyStrip title

/-- The punctuation characters removed by `RatingMerger.normalize_title`
(colon, comma, period, bang, question mark, hyphen, apostrophe, double
quote). -/
def punctChars : List Char :=
  [':', ',', '.', '!', '?', '-', Char.ofNat 39, Char.ofNat 34]

/-- `RatingMerger.normalize_title`: clean, lowercase + strip, drop a
leading `"the "`, delete the punctuation characters (a sequence of
`str.replace(c, '')`, i.e. removal of every occurrence), strip. -/
def normalize_title (title : String) : String :=
  if title = "" then ""
  else
    let t := clean_title title
    let t := pyStrip (pyLower t)
    let t := if strStartsWith t "the " then String.mk (t.data.drop 4) else t
    let t := removeChars punctChars t
    pyStrip t

/-- `RatingMerger.fuzzy_match_score`. -/
def fuzzy_match_score (title1 title2 : String) : ℚ :=
  ratioOf (normalize_title title1) (normalize_title title2)

/-- A `CanonicalMovie` dict entry of `movies.json`.  The five rating
fields model possibly-absent dict keys: the outer `Option` is key
presence, the inner value is the stored (possibly null) string. -/
structure Movie where
  title : String
  year : String
  ar : Option (Option String) := none
  br : Option (Option String) := none
  jr : Option (Option String) := none
  rating : Option (Option String) := none
  rating_notes : Option String := none
deriving DecidableEq, Repr

/-- The `'Year'` value of a CSV/ratings row: either a string or a float
(`num none` = NaN, `num (some n)` = a float with integral part `n`; only
`int(x)` of the float is ever used). -/
inductive YearVal where
  | str (s : String)
  | num (v : Option Int)
deriving DecidableEq, Repr

/-- A `RatingEntry` row.  `none` fields model absent keys (or `None`
values, which every consumer treats identically to absence here). -/
structure Rating where
  title : Option String := none
  name : Option String := none
  year : Option YearVal := none
  ar : Option String := none
  br : Option String := none
  jr : Option String := none
  rating : Option String := none
  rating_notes : Option String := none
deriving DecidableEq, Repr

/-- `rating.get('Title') or rating.get('Name', '')` — Python `or` falls
through on `None` and on the empty string. -/
def ratingTitleRaw (r : Rating) : String :=
  match r.title with
  | some t => if t = "" then r.name.getD "" else t
  | none => r.name.getD ""

/-- The year-to-string conversion of `find_matching_movie` (and of the
unmatched-report branch of `merge`): floats become `str(int(x))` (or `''`
for NaN), everything else becomes `str(x).strip()`; an absent key has
already defaulted to `''`. -/
def yearValStr : Option YearVal → String
  | none => ""
  | some (.str s) => pyStrip s
  | some (.num (some n)) => toString n
  | some (.num none) => ""

/-- Does `re.search(r'\((\d{4})\)', s)` match at position `i` (a literal
`(`, four digits, `)`)?  Returns the captured digits. -/
def parenYearAt (cs : List Char) (i : Nat) : Option String :=
  match cs.drop i with
  | '(' :: d1 :: d2 :: d3 :: d4 :: ')' :: _ =>
    if d1.isDigit && d2.isDigit && d3.isDigit && d4.isDigit then
      some (String.mk [d1, d2, d3, d4])
    else none
  | _ => none

/-- Leftmost match of `re.search(r'\((\d{4})\)', s)`. -/
def findParenYear (s : String) : Option String :=
  List.findSome? (parenYearAt s.data) (List.range s.data.length)

/-- The final `rating_year` computed by `find_matching_movie`:
the converted `'Year'` value, replaced by a 4-digit parenthetical
extracted from the raw title when the converted value is empty
or the literal string `nan`. -/
def ratingYearOf (r : Rating) : String :=
  let t0 := ratingTitleRaw r
  let y0 := yearValStr r.year
  if t0 ≠ "" ∧ t0.data.contains '(' then
    match findParenYear t0 with
    | some ey => if y0 = "" ∨ y0 = "nan" then ey else y0
    | none => y0
  else y0

/-- The `for movie in self.movies` loop of `find_matching_movie`,
tracking the index of the best movie so far (the Python code tracks the
dict reference; the index of the first maximal-scoring movie is the same
datum, as `score > best_score` is strict).  Movies whose stripped `year`
differs from `ryear` are skipped. -/
def bestCandidateAux (rtitle ryear : String) :
    List Movie → Nat → Option Nat × ℚ → Option Nat × ℚ
  | [], _, acc => acc
  | m :: rest, i, acc =>
    let acc' :=
      if pyStrip m.year ≠ ryear then acc
      else
        let score := fuzzy_match_score rtitle m.title
        if score > acc.2 then (some i, score) else acc
    bestCandidateAux rtitle ryear rest (i + 1) acc'

/-- `RatingMerger.find_matching_movie`: returns the index of the matched
movie (in place of the Python dict reference) and the confidence score. -/
def find_matching_movie (movies : List Movie) (r : Rating) : Option Nat × ℚ :=
  let rtitle := clean_title (ratingTitleRaw r)
  let ryear := ratingYearOf r
  if rtitle = "" ∨ ryear = "" ∨ ryear = "nan" then ((none : Option Nat), (0 : ℚ))
  else
    let best := bestCandidateAux rtitle ryear movies 0 ((none : Option Nat), (0 : ℚ))
    if best.2 ≥ mkRat 9 10 then best else (none, best.2)

/-- `RatingMerger.sanitize_value`. -/
def sanitize_value : Option String → Option String
  | none => none
  | some v =>
    if v = "" then none
    else
      let v' := pyStrip v
      if pyLower v' = "" ∨ pyLower v' = "n/a" ∨ pyLower v' = "none" ∨ pyLower v' = "-" then
        none
      else some v'

/-- The in-place rating-field assignment of the matched branch of
`RatingMerger.merge`. -/
def applyRating (m : Movie) (r : Rating) : Movie :=
  { m with
    ar := some (sanitize_value r.ar),
    br := some (sanitize_value r.br),
    jr := some (sanitize_value r.jr),
    rating := some (sanitize_value r.rating),
    rating_notes := some (pyStrip (r.rating_notes.getD "")) }

/-- One line of the unmatched report (`best_confidence` is kept as the
raw score; its percent formatting — and the `"No match"` rendering of a
zero score — is presentation only). -/
structure UnmatchedEntry where
  title : String
  year : String
  bestConfidence : ℚ
deriving DecidableEq, Repr

/-- One line of `match_details` (`confidence` kept as the raw score). -/
structure MatchDetail where
  csvTitle : String
  csvYear : Option YearVal
  matchedTitle : String
  matchedYear : String
  confidence : ℚ
deriving DecidableEq, Repr

/-- The per-rating loop of `RatingMerger.merge`, threading the movies
list (Python mutates the matched dict in place), the matched count, the
unmatched report and the match details. -/
def mergeLoop :
    List Rating → List Movie → Nat → List UnmatchedEntry → List MatchDetail →
    List Movie × Nat × List UnmatchedEntry × List MatchDetail
  | [], ms, cnt, unm, det => (ms, cnt, unm, det)
  | r :: rest, ms, cnt, unm, det =>
    let found := find_matching_movie ms r
    match found.1 with
    | some i =>
      if found.2 ≥ mkRat 9 10 then
        match ms.get? i with
        | some m =>
          mergeLoop rest (ms.set i (applyRating m r)) (cnt + 1) unm
            (det ++ [⟨ratingTitleRaw r, r.year, m.title, m.year, found.2⟩])
        | none => mergeLoop rest ms cnt unm det
      else
        mergeLoop rest ms cnt (unm ++ [⟨ratingTitleRaw r, yearValStr r.year, found.2⟩]) det
    | none =>
      mergeLoop rest ms cnt (unm ++ [⟨ratingTitleRaw r, yearValStr r.year, found.2⟩]) det

/-- The post-loop pass of `RatingMerger.merge`: movies still lacking an
`'ar'` key get all five rating fields set to null / the empty string. -/
def fillEmpty (m : Movie) : Movie :=
  if m.ar = none then
    { m with ar := some none, br := some none, jr := some none,
             rating := some none, rating_notes := some "" }
  else m

/-- The statistics dict returned by `RatingMerger.merge`. -/
structure MergeStats where
  matched : Nat
  unmatched : List UnmatchedEntry
  matchDetails : List MatchDetail
  totalRatings : Nat
  totalMovies : Nat
deriving DecidableEq, Repr

/-- `RatingMerger.merge`: the rating loop, then the fill pass; returns the
statistics together with the final movies list. -/
def merge (ratings : List Rating) (movies : List Movie) :
    MergeStats × List Movie :=
  let (ms, cnt, unm, det) := mergeLoop ratings movies 0 [] []
  let ms' := ms.map fillEmpty
  ({ matched := cnt, unmatched := unm, matchDetails := det,
     totalRatings := ratings.length, totalMovies := ms'.length }, ms')

/-! ## Episode data cleaner (`src/scrapers/data_cleaner.py`), row-wise

The cleaner operates on a pandas DataFrame column-wise; each step below is
its action on one row. -/

/-- Split on every occurrence of `c` — Python `s.split(c)` / pandas
`Series.str.split(c)` at one row. -/
def splitOnChar (c : Char) : List Char → List (List Char)
  | [] => [[]]
  | x :: rest =>
    if x = c then [] :: splitOnChar c rest
    else
      match splitOnChar c rest with
      | [] => [[x]]
      | p :: ps => (x :: p) :: ps

/-- One row of `EpisodeDataCleaner._parse_titles`: the episode number
comes only from the transcript-derived `episode_mapping` (its lookup
result is the `mappedNumber` argument, `none` when the raw title is not a
key of the mapping); the raw title is kept whole as the `episode` field —
the method performs no other parsing. -/
def parse_titles_row (mappedNumber : Option String) (rawTitle : String) :
    Option String × String :=
  (mappedNumber, rawTitle)

/-- One row of `EpisodeDataCleaner._clean_episode_names`: the two
`str.replace` calls deleting every `'` and `"`. -/
def clean_episode_name (s : String) : String :=
  removeChars [Char.ofNat 39, Char.ofNat 34] s

/-- One row of `EpisodeDataCleaner._extract_years`: split the episode on
`(`; the stripped first piece is the episode name; the second piece (text
between the first and second `(`, absent when the row has no `(`) with
every `)` removed and stripped is the year. -/
def extract_years_row (episode : String) : String × Option String :=
  let parts := (splitOnChar '(' episode.data).map String.mk
  let ep := pyStrip (parts.headD "")
  let yr := (parts.get? 1).map (fun p => pyStrip (removeChars [')'] p))
  (ep, yr)

/-- The parse → quote-strip → year-extraction chain of
`EpisodeDataCleaner.clean_episodes` on one row: produces the `number`,
`episode` and `year` fields. -/
def cleanRow (mappedNumber : Option String) (rawTitle : String) :
    Option String × String × Option String :=
  let (num, ep) := parse_titles_row mappedNumber rawTitle
  let ep' := clean_episode_name ep
  let (ep'', yr) := extract_years_row ep'
  (num, ep'', yr)

/-! ## Projections used by the theorems -/

/-- The fields of a movie read by `find_matching_movie` (title and year);
the merge pass mutates only the other fields. -/
def movieKey (m : Movie) : String × String := (m.title, m.year)

/-- The five rating fields of a movie. -/
def ratingBlock (m : Movie) :
    Option (Option String) × Option (Option String) × Option (Option String) ×
      Option (Option String) × Option String :=
  (m.ar, m.br, m.jr, m.rating, m.rating_notes)

/-- The rating block written by the matched branch of `merge` for rating
entry `r`. -/
def mergedBlock (r : Rating) :
    Option (Option String) × Option (Option String) × Option (Option String) ×
      Option (Option String) × Option String :=
  (some (sanitize_value r.ar), some (sanitize_value r.br), some (sanitize_value r.jr),
   some (sanitize_value r.rating), some (pyStrip (r.rating_notes.getD "")))

/-- The rating block written by the fill pass for never-matched movies:
all four ratings null, empty notes. -/
def emptyBlock :
    Option (Option String) × Option (Option String) × Option (Option String) ×
      Option (Option String) × Option String :=
  (some none, some none, some none, some none, some "")

/-! ## Concrete data for witnesses and counterexamples -/

/-- A found OMDB response (for witness environments). -/
def foundData : OmdbData := ⟨some "True", some "tt0078748", some "Alien", some "1979"⟩

/-- A not-found OMDB response (`Response == 'False'`). -/
def missData : OmdbData := ⟨some "False", none, none, none⟩

/-- Environment where only the whitespace-cleaned title with year
succeeds (strategy 3 of the ladder). -/
def ladderEnv : OmdbEnv := fun t yp =>
  if t = "Alien Movie" ∧ yp = some "1979" then .ok foundData else .ok missData

/-- Environment that never finds anything. -/
def missEnv : OmdbEnv := fun _ _ => .ok missData

/-- Environment that fails (raises) on one specific title. -/
def flakyEnv : OmdbEnv := fun t _ =>
  if t = "B" then .error () else .ok foundData

/-- A response marked found whose `imdbID` key is present but empty. -/
def emptyIdData : OmdbData := ⟨some "True", some "", some "The Blob", some "1958"⟩

/-- Environment returning the empty-identifier response. -/
def emptyIdEnv : OmdbEnv := fun _ _ => .ok emptyIdData

/-- A movie that already carries rating fields before the merge pass. -/
def prefilledMovie : Movie :=
  { title := "X", year := "2000", ar := some (some "5"), br := some (some "4"),
    jr := some (some "3"), rating := some (some "5"), rating_notes := some "n" }

/-- A bare movie without rating fields. -/
def alienMovie : Movie := { title := "Alien", year := "1979" }

/-- A ratings row for the bare movie. -/
def alienRating : Rating :=
  { title := some "Alien", year := some (.str "1979"), ar := some "8",
    br := some "7", jr := some "9", rating := some "8" }

/-! ## Theorems -/

/-- C8 (counterexample): the merger's normalization does not map
`"The Terminator"` and `"Terminator, The"` to the same string — only a
leading `"the "` is dropped, so the second title normalizes to
`"terminator the"` — and `fuzzy_match_score` on the two titles is not
`1.0`. -/
theorem c8_counterexample :
    normalize_title "The Terminator" = "terminator" ∧
    normalize_title "Terminator, The" = "terminator the" ∧
    fuzzy_match_score "The Terminator" "Terminator, The" ≠ 1 := by
  refine ⟨by decide, by decide, by decide⟩

/-- C8 (amended): `normalize_title` drops only a leading `"the "` (after
punctuation-stripping the trailing `", The"` remains as `" the"`), so the
two titles normalize to `"terminator"` and `"terminator the"` and
`fuzzy_match_score` returns `5/6 ≈ 0.833` — below the `0.90` acceptance
threshold — rather than `1.0`. -/
theorem c8_amended :
    fuzzy_match_score "The Terminator" "Terminator, The" = 5 / 6 := by
  have h : fuzzy_match_score "The Terminator" "Terminator, The" = mkRat 5 6 := by decide
  rw [h, Rat.mkRat_eq_divInt, Rat.divInt_eq_div]
  norm_num

/-- C7 (counterexample): a response that indicates the record was found
but carries an *empty* external identifier is still treated as a success
by `_query_omdb` — the code checks only that the `imdbID` key is present,
not that it is non-empty — refuting the claim that every response lacking
a non-empty identifier is treated as a failure. -/
theorem c7_counterexample :
    query_omdb emptyIdEnv "The Blob" none = .ok (some emptyIdData) ∧
    emptyIdData.imdbID = some "" := by
  exact ⟨rfl, rfl⟩

/-- C7 (amended): a lookup response counts as a success — terminating the
ladder and being returned — exactly when it indicates the record was found
(`Response != 'False'`) and the `imdbID` key is *present* (possibly
empty); its non-emptiness is not checked.  Any other response yields a
failure (`None`), letting the ladder continue. -/
theorem c7_amended (env : OmdbEnv) (title : String) (year : Option String)
    (yp : Option String) (data : OmdbData)
    (hyp : yearParamE year = .ok yp) (henv : env title yp = .ok data) :
    query_omdb env title year =
      .ok (if data.response ≠ some "False" ∧ data.imdbID ≠ none then some data else none) := by
  simp only [query_omdb, hyp, henv]
  by_cases hresp : data.response = some "False"
  · simp [hresp]
  · by_cases hid : data.imdbID = none
    · simp [hresp, hid]
    · simp [hresp, hid]

/-- Witness for `c7_amended` at a concrete found response. -/
theorem c7_amended_witness :
    query_omdb (fun _ _ => .ok foundData) "Alien" none =
      .ok (if foundData.response ≠ some "False" ∧ foundData.imdbID ≠ none
           then some foundData else none) :=
  c7_amended (fun _ _ => .ok foundData) "Alien" none none foundData rfl rfl

/-- C10: for every `year` whose first whitespace-separated token is not a
digit string, `_query_omdb` silently omits the `y=` parameter, so the
query — including the first ladder strategy, specified as title and year
as given — is issued by title alone, identically to a query with no year. -/
theorem c10_nondigit_year_dropped (env : OmdbEnv) (title y tok : String)
    (htok : (pySplitWS y).head? = some tok) (hnd : isDigitStr tok = false) :
    yearParamE (some y) = .ok none ∧
    query_omdb env title (some y) = query_omdb env title none := by
  have hy : y ≠ "" := by
    intro he
    rw [he] at htok
    exact Option.noConfusion htok
  have hsplit : ∃ rest, pySplitWS y = tok :: rest := by
    cases hs : pySplitWS y with
    | nil => rw [hs] at htok; exact absurd htok (by simp)
    | cons a l =>
      rw [hs] at htok
      simp only [List.head?_cons, Option.some.injEq] at htok
      exact ⟨l, by rw [htok]⟩
  obtain ⟨rest, hrest⟩ := hsplit
  have hparam : yearParamE (some y) = .ok none := by
    simp only [yearParamE, if_neg hy, hrest, hnd]
    simp
  refine ⟨hparam, ?_⟩
  unfold query_omdb
  rw [hparam]
  rfl

/-- Witness for `c10_nondigit_year_dropped` at `year = "n/a"`. -/
theorem c10_witness :
    yearParamE (some "n/a") = .ok none ∧
    query_omdb missEnv "Alien" (some "n/a") = query_omdb missEnv "Alien" none := by
  have h := c10_nondigit_year_dropped missEnv "Alien" "n/a" "n/a" (by decide) (by decide)
  exact h

/-- C6 (counterexample): the cleaner applied to the well-formed label
`"123: Alien (1979)"` (not a transcript-mapping key, so `mappedNumber`
is `none`) yields episode number `none` and title `"123: Alien"` — the
label is *not* split on the first colon, so the episode number `"123"` is
not recovered and stays inside the title; only the year `"1979"` is
extracted as the claim states. -/
theorem c6_counterexample :
    cleanRow none "123: Alien (1979)" = (none, "123: Alien", some "1979") ∧
    ((none : Option String), "123: Alien", (some "1979" : Option String)) ≠
      (some "123", "Alien", some "1979") := by
  exact ⟨by decide, by decide⟩

/-- C4: once a `search_movie` call with caching completes with result
`res` and cache `c1`, the result — found or not — sits in the cache under
the original pre-ladder `(title, year)` key, and an identical second call
returns the identical output from the cache alone, issuing zero live
queries and leaving the cache unchanged. -/
theorem c4_cache_second_call (env : OmdbEnv) (cache : Cache) (title : String)
    (year : Option String) (res : Option OmdbData) (c1 : Cache) (n : Nat)
    (h : search_movie env cache title year true = .ok (res, c1, n)) :
    lookupCache (cacheKey title year) c1 = some res ∧
    search_movie env c1 title year true = .ok (res, c1, 0) := by
  unfold search_movie at h ⊢
  rw [if_pos rfl] at h ⊢
  cases hl : lookupCache (cacheKey title year) cache with
  | some v =>
    rw [hl] at h
    have hv : v = res ∧ cache = c1 ∧ 0 = n := by
      injection h with h2
      exact ⟨congrArg (fun p => p.1) h2, congrArg (fun p => p.2.1) h2,
        congrArg (fun p => p.2.2) h2⟩
    obtain ⟨h1, h2, -⟩ := hv
    subst h1
    subst h2
    refine ⟨hl, ?_⟩
    rw [hl]
  | none =>
    rw [hl] at h
    unfold searchFresh at h
    cases hr : runLadder env (searchStrategies title year) with
    | error e => rw [hr] at h; exact absurd h (by simp)
    | ok p =>
      obtain ⟨res', n'⟩ := p
      rw [hr] at h
      have hv : res' = res ∧ insertCache (cacheKey title year) res' cache = c1 ∧ n' = n := by
        injection h with h2
        exact ⟨congrArg (fun p => p.1) h2, congrArg (fun p => p.2.1) h2,
          congrArg (fun p => p.2.2) h2⟩
      obtain ⟨h1, h2, -⟩ := hv
      subst h1
      have hlook : lookupCache (cacheKey title year) c1 = some res' := by
        rw [← h2]
        simp [insertCache, lookupCache]
      refine ⟨hlook, ?_⟩
      rw [hlook]

/-- Witness for `c4_cache_second_call`: a first not-found lookup is cached
and replayed. -/
theorem c4_witness :
    lookupCache (cacheKey "Alien" none) [(cacheKey "Alien" none, (none : Option OmdbData))] =
      some none ∧
    search_movie missEnv [(cacheKey "Alien" none, (none : Option OmdbData))] "Alien" none true =
      .ok (none, [(cacheKey "Alien" none, (none : Option OmdbData))], 0) := by
  exact c4_cache_second_call missEnv [] "Alien" none none
    [(cacheKey "Alien" none, none)] 1 rfl

/-- Each loop iteration of the batch appends exactly one slot. -/
theorem batchLoop_length (env : OmdbEnv) :
    ∀ (l : List (String × Option String)) (c : Cache),
      (batchLoop env l c).1.length = l.length := by
  intro l
  induction l with
  | nil => intro c; rfl
  | cons p rest ih =>
    intro c
    obtain ⟨t, y⟩ := p
    unfold batchLoop
    cases hs : search_movie env c t y true with
    | ok r =>
      obtain ⟨r0, c', k⟩ := r
      have hlen := ih c'
      cases hb : batchLoop env rest c' with
      | mk rs0 c2 =>
        rw [hb] at hlen
        simp [hb, hlen]
    | error e =>
      have hlen := ih c
      cases hb : batchLoop env rest c with
      | mk rs0 c2 =>
        rw [hb] at hlen
        simp [hb, hlen]

/-- C3: for every list of titles and either no years list or one of equal
length, `search_movies_batch` returns (never raises once the per-item
loop has started — item failures become `None` slots) a list with exactly
one entry per input position. -/
theorem c3_batch_one_slot_per_input (env : OmdbEnv) (cache : Cache)
    (titles : List String) (years : Option (List String))
    (h : years = none ∨ ∃ ys, years = some ys ∧ ys.length = titles.length) :
    ∃ rs c2, search_movies_batch env cache titles years = .ok (rs, c2) ∧
      rs.length = titles.length := by
  rcases h with h | ⟨ys, hys, hlen⟩
  · subst h
    refine ⟨_, _, rfl, ?_⟩
    rw [batchLoop_length, List.length_zip, List.length_map, min_self]
  · subst hys
    simp only [search_movies_batch]
    rw [if_neg (by simp [hlen])]
    refine ⟨_, _, rfl, ?_⟩
    rw [batchLoop_length, List.length_zip, List.length_map, hlen, min_self]

/-- Witness for `c3_batch_one_slot_per_input`: a three-item batch whose
middle item raises still yields three slots. -/
theorem c3_witness :
    ∃ rs c2, search_movies_batch flakyEnv [] ["A", "B", "C"] none = .ok (rs, c2) ∧
      rs.length = 3 := by
  simpa using
    c3_batch_one_slot_per_input flakyEnv [] ["A", "B", "C"] none (Or.inl rfl)

/-- C1: with a truthy year and a title changed by whitespace
normalization, the ladder consists of exactly the four strategies in the
specified order; when strategies 1 and 2 fail and strategy 3 succeeds,
`search_movie` returns exactly the record that querying strategy 3 alone
produces, caches it under the pre-ladder key, and issues exactly 3 live
queries — strategy 4 is never attempted. -/
theorem c1_first_success_wins (env : OmdbEnv) (cache : Cache) (title y : String)
    (d : OmdbData)
    (hy : y ≠ "") (hclean : cleanedTitle title ≠ title)
    (hmiss : lookupCache (cacheKey title (some y)) cache = none)
    (h1 : query_omdb env title (some y) = .ok none)
    (h2 : query_omdb env title none = .ok none)
    (h3 : query_omdb env (cleanedTitle title) (some y) = .ok (some d)) :
    searchStrategies title (some y) =
      [(title, some y), (title, none),
       (cleanedTitle title, some y), (cleanedTitle title, none)] ∧
    search_movie env cache title (some y) true =
      .ok (some d, insertCache (cacheKey title (some y)) (some d) cache, 3) := by
  have hyt : yearTruthy (some y) = true := by
    obtain ⟨l⟩ := y
    cases l with
    | nil => exact absurd rfl hy
    | cons c cs => rfl
  have hstrat : searchStrategies title (some y) =
      [(title, some y), (title, none),
       (cleanedTitle title, some y), (cleanedTitle title, none)] := by
    unfold searchStrategies
    rw [hyt, if_pos rfl, if_pos hclean, if_pos rfl]
    simp
  refine ⟨hstrat, ?_⟩
  unfold search_movie
  rw [if_pos rfl, hmiss]
  unfold searchFresh
  rw [hstrat]
  simp only [runLadder, h1, h2, h3]

/-- Witness for `c1_first_success_wins`: `"Alien  Movie"` (double space)
is found only after whitespace normalization. -/
theorem c1_witness :
    searchStrategies "Alien  Movie" (some "1979") =
      [("Alien  Movie", some "1979"), ("Alien  Movie", none),
       (cleanedTitle "Alien  Movie", some "1979"), (cleanedTitle "Alien  Movie", none)] ∧
    search_movie ladderEnv [] "Alien  Movie" (some "1979") true =
      .ok (some foundData,
           insertCache (cacheKey "Alien  Movie" (some "1979")) (some foundData) [], 3) :=
  c1_first_success_wins ladderEnv [] "Alien  Movie" "1979" foundData
    (by decide) (by decide) rfl rfl rfl rfl

/-- The candidate loop only ever promotes indices of movies whose
stripped year equals `ryear`: any `some` result either came in through
the accumulator or points at a same-year movie. -/
theorem bestCandidateAux_some_year (rtitle ryear : String) :
    ∀ (l : List Movie) (i0 : Nat) (acc : Option Nat × ℚ) (j : Nat),
      (bestCandidateAux rtitle ryear l i0 acc).1 = some j →
      acc.1 = some j ∨
        ∃ k m, j = i0 + k ∧ l.get? k = some m ∧ pyStrip m.year = ryear := by
  intro l
  induction l with
  | nil =>
    intro i0 acc j h
    exact Or.inl h
  | cons m rest ih =>
    intro i0 acc j h
    unfold bestCandidateAux at h
    by_cases hy : pyStrip m.year ≠ ryear
    · rw [if_pos hy] at h
      rcases ih (i0 + 1) acc j h with hacc | ⟨k, m', hjk, hget, hyear⟩
      · exact Or.inl hacc
      · exact Or.inr ⟨k + 1, m', by omega, by simpa using hget, hyear⟩
    · rw [if_neg hy] at h
      push_neg at hy
      by_cases hs : fuzzy_match_score rtitle m.title > acc.2
      · rw [if_pos hs] at h
        rcases ih (i0 + 1) (some i0, fuzzy_match_score rtitle m.title) j h with hacc | hrest
        · simp only [Option.some.injEq] at hacc
          exact Or.inr ⟨0, m, by omega, rfl, hy⟩
        · obtain ⟨k, m', hjk, hget, hyear⟩ := hrest
          exact Or.inr ⟨k + 1, m', by omega, by simpa using hget, hyear⟩
      · rw [if_neg hs] at h
        rcases ih (i0 + 1) acc j h with hacc | ⟨k, m', hjk, hget, hyear⟩
        · exact Or.inl hacc
        · exact Or.inr ⟨k + 1, m', by omega, by simpa using hget, hyear⟩

/-- C2: exact-year gating of the fuzzy merger — whenever
`find_matching_movie` returns a movie, that movie's (stripped) year
equals the rating's computed year; a movie whose year string differs can
never be the match, regardless of title similarity. -/
theorem c2_exact_year_gate (movies : List Movie) (r : Rating) (i : Nat) (s : ℚ)
    (h : find_matching_movie movies r = (some i, s)) :
    ∃ m, movies.get? i = some m ∧ pyStrip m.year = ratingYearOf r := by
  simp only [find_matching_movie] at h
  by_cases hg : clean_title (ratingTitleRaw r) = "" ∨
      ratingYearOf r = "" ∨ ratingYearOf r = "nan"
  · rw [if_pos hg] at h
    have := congrArg Prod.fst h
    simp at this
  · rw [if_neg hg] at h
    by_cases hth :
        (bestCandidateAux (clean_title (ratingTitleRaw r)) (ratingYearOf r) movies 0
            ((none : Option Nat), (0 : ℚ))).2 ≥ mkRat 9 10
    · rw [if_pos hth] at h
      have h1 : (bestCandidateAux (clean_title (ratingTitleRaw r)) (ratingYearOf r) movies 0
          ((none : Option Nat), (0 : ℚ))).1 = some i := by
        rw [h]
      rcases bestCandidateAux_some_year (clean_title (ratingTitleRaw r)) (ratingYearOf r)
          movies 0 ((none : Option Nat), (0 : ℚ)) i h1 with hacc | ⟨k, m, hjk, hget, hyear⟩
      · exact absurd hacc (by simp)
      · refine ⟨m, ?_, hyear⟩
        have : i = k := by omega
        rw [this, hget]
    · rw [if_neg hth] at h
      have := congrArg Prod.fst h
      simp at this

/-- Witness for `c2_exact_year_gate`: the `"Alien"` / `"1979"` rating
matches the `"Alien"` / `"1979"` movie, whose year it shares. -/
theorem c2_witness :
    ∃ m, ([alienMovie] : List Movie).get? 0 = some m ∧
      pyStrip m.year = ratingYearOf alienRating :=
  c2_exact_year_gate [alienMovie] alienRating 0 1 (by decide)

/-- The kernel-computable threshold equals the spec's `0.90`. -/
theorem mkRat_nine_tenths : mkRat 9 10 = (9 : ℚ) / 10 := by
  rw [Rat.mkRat_eq_divInt, Rat.divInt_eq_div]
  norm_num

/-- `find_matching_movie` returns a movie only when the best score
reaches the threshold. -/
theorem find_some_threshold (movies : List Movie) (r : Rating)
    (h : (find_matching_movie movies r).1 ≠ none) :
    (find_matching_movie movies r).2 ≥ mkRat 9 10 := by
  simp only [find_matching_movie] at h ⊢
  by_cases hg : clean_title (ratingTitleRaw r) = "" ∨
      ratingYearOf r = "" ∨ ratingYearOf r = "nan"
  · rw [if_pos hg] at h
    simp at h
  · rw [if_neg hg] at h ⊢
    by_cases hth :
        (bestCandidateAux (clean_title (ratingTitleRaw r)) (ratingYearOf r) movies 0
            ((none : Option Nat), (0 : ℚ))).2 ≥ mkRat 9 10
    · rw [if_pos hth]
      exact hth
    · rw [if_neg hth] at h
      simp at h

/-- The candidate loop reads only each movie's title and year, so lists
with equal `movieKey` projections produce the same result. -/
theorem bestCandidateAux_congr (rtitle ryear : String) :
    ∀ (l l' : List Movie), l.map movieKey = l'.map movieKey →
      ∀ (i0 : Nat) (acc : Option Nat × ℚ),
        bestCandidateAux rtitle ryear l i0 acc = bestCandidateAux rtitle ryear l' i0 acc := by
  intro l
  induction l with
  | nil =>
    intro l' hmap
    cases l' with
    | nil => intro i0 acc; rfl
    | cons m' rest' => simp at hmap
  | cons m rest ih =>
    intro l' hmap
    cases l' with
    | nil => simp at hmap
    | cons m' rest' =>
      simp only [List.map_cons, List.cons.injEq] at hmap
      obtain ⟨hkey, hrest⟩ := hmap
      have ht : m.title = m'.title := congrArg Prod.fst hkey
      have hy : m.year = m'.year := congrArg Prod.snd hkey
      intro i0 acc
      unfold bestCandidateAux
      rw [ht, hy, ih rest' hrest (i0 + 1)]

/-- `find_matching_movie` depends only on the `movieKey` projection of
the movies list. -/
theorem find_matching_movie_congr (ms ms' : List Movie) (r : Rating)
    (h : ms.map movieKey = ms'.map movieKey) :
    find_matching_movie ms r = find_matching_movie ms' r := by
  simp only [find_matching_movie]
  rw [bestCandidateAux_congr (clean_title (ratingTitleRaw r)) (ratingYearOf r) ms ms' h]

/-- Writing rating fields into one movie does not change any movie's
title/year projection. -/
theorem map_movieKey_set (r : Rating) :
    ∀ (ms : List Movie) (i : Nat) (m : Movie), ms.get? i = some m →
      (ms.set i (applyRating m r)).map movieKey = ms.map movieKey := by
  intro ms
  induction ms with
  | nil => intro i m hm; cases i <;> simp at hm
  | cons a l ih =>
    intro i m hm
    cases i with
    | zero =>
      simp only [List.get?_cons_zero, Option.some.injEq] at hm
      subst hm
      rfl
    | succ k =>
      simp only [List.get?_cons_succ] at hm
      have hrec := ih k m hm
      simp only [List.set_cons_succ, List.map_cons, hrec]

/-- Rating-loop step, matched branch: an accepted rating mutates the
matched movie in place and is recorded in the match details. -/
theorem mergeLoop_cons_matched (r : Rating) (rest : List Rating) (ms : List Movie)
    (cnt : Nat) (unm : List UnmatchedEntry) (det : List MatchDetail) (i : Nat) (m : Movie)
    (hf : (find_matching_movie ms r).1 = some i)
    (hth : (find_matching_movie ms r).2 ≥ mkRat 9 10)
    (hm : ms.get? i = some m) :
    mergeLoop (r :: rest) ms cnt unm det =
      mergeLoop rest (ms.set i (applyRating m r)) (cnt + 1) unm
        (det ++ [⟨ratingTitleRaw r, r.year, m.title, m.year,
                 (find_matching_movie ms r).2⟩]) := by
  simp only [mergeLoop, hf]
  rw [if_pos hth, hm]

/-- Rating-loop step, degenerate branch: the matched index has no movie
(unreachable for well-formed results; kept for totality). -/
theorem mergeLoop_cons_ghost (r : Rating) (rest : List Rating) (ms : List Movie)
    (cnt : Nat) (unm : List UnmatchedEntry) (det : List MatchDetail) (i : Nat)
    (hf : (find_matching_movie ms r).1 = some i)
    (hth : (find_matching_movie ms r).2 ≥ mkRat 9 10)
    (hm : ms.get? i = none) :
    mergeLoop (r :: rest) ms cnt unm det = mergeLoop rest ms cnt unm det := by
  simp only [mergeLoop, hf]
  rw [if_pos hth, hm]

/-- Rating-loop step, below-threshold branch. -/
theorem mergeLoop_cons_below (r : Rating) (rest : List Rating) (ms : List Movie)
    (cnt : Nat) (unm : List UnmatchedEntry) (det : List MatchDetail) (i : Nat)
    (hf : (find_matching_movie ms r).1 = some i)
    (hth : ¬ (find_matching_movie ms r).2 ≥ mkRat 9 10) :
    mergeLoop (r :: rest) ms cnt unm det =
      mergeLoop rest ms cnt
        (unm ++ [⟨ratingTitleRaw r, yearValStr r.year, (find_matching_movie ms r).2⟩]) det := by
  simp only [mergeLoop, hf]
  rw [if_neg hth]

/-- Rating-loop step, no-candidate branch. -/
theorem mergeLoop_cons_none (r : Rating) (rest : List Rating) (ms : List Movie)
    (cnt : Nat) (unm : List UnmatchedEntry) (det : List MatchDetail)
    (hf : (find_matching_movie ms r).1 = none) :
    mergeLoop (r :: rest) ms cnt unm det =
      mergeLoop rest ms cnt
        (unm ++ [⟨ratingTitleRaw r, yearValStr r.year, (find_matching_movie ms r).2⟩]) det := by
  simp only [mergeLoop, hf]

/-- Entries already in the unmatched report stay in it. -/
theorem mergeLoop_unm_mono :
    ∀ (ratings : List Rating) (ms : List Movie) (cnt : Nat)
      (unm : List UnmatchedEntry) (det : List MatchDetail) (e : UnmatchedEntry),
      e ∈ unm → e ∈ (mergeLoop ratings ms cnt unm det).2.2.1 := by
  intro ratings
  induction ratings with
  | nil => intro ms cnt unm det e he; exact he
  | cons r rest ih =>
    intro ms cnt unm det e he
    cases hf : (find_matching_movie ms r).1 with
    | some i =>
      by_cases hth : (find_matching_movie ms r).2 ≥ mkRat 9 10
      · cases hm : ms.get? i with
        | some m =>
          rw [mergeLoop_cons_matched r rest ms cnt unm det i m hf hth hm]
          exact ih _ _ _ _ e he
        | none =>
          rw [mergeLoop_cons_ghost r rest ms cnt unm det i hf hth hm]
          exact ih _ _ _ _ e he
      · rw [mergeLoop_cons_below r rest ms cnt unm det i hf hth]
        exact ih _ _ _ _ e (List.mem_append_left _ he)
    | none =>
      rw [mergeLoop_cons_none r rest ms cnt unm det hf]
      exact ih _ _ _ _ e (List.mem_append_left _ he)

/-- Any rating in the list whose lookup (against the original movies
projection) finds no acceptable movie ends up in the unmatched report
with its best score. -/
theorem mergeLoop_unmatched_mem (movies : List Movie) (r : Rating)
    (hnone : (find_matching_movie movies r).1 = none) :
    ∀ (ratings : List Rating) (ms : List Movie) (cnt : Nat)
      (unm : List UnmatchedEntry) (det : List MatchDetail),
      ms.map movieKey = movies.map movieKey → r ∈ ratings →
      (⟨ratingTitleRaw r, yearValStr r.year, (find_matching_movie movies r).2⟩ : UnmatchedEntry)
        ∈ (mergeLoop ratings ms cnt unm det).2.2.1 := by
  intro ratings
  induction ratings with
  | nil => intro ms cnt unm det hproj hr; simp at hr
  | cons r0 rest ih =>
    intro ms cnt unm det hproj hr
    rcases List.mem_cons.mp hr with heq | hmem
    · subst heq
      have hfind : find_matching_movie ms r = find_matching_movie movies r :=
        find_matching_movie_congr ms movies r hproj
      have hf : (find_matching_movie ms r).1 = none := by rw [hfind, hnone]
      rw [mergeLoop_cons_none r rest ms cnt unm det hf, hfind]
      exact mergeLoop_unm_mono rest ms cnt _ det _
        (List.mem_append_right _ (List.mem_singleton.mpr rfl))
    · cases hf : (find_matching_movie ms r0).1 with
      | some i =>
        by_cases hth : (find_matching_movie ms r0).2 ≥ mkRat 9 10
        · cases hm : ms.get? i with
          | some m =>
            rw [mergeLoop_cons_matched r0 rest ms cnt unm det i m hf hth hm]
            exact ih _ _ _ _ ((map_movieKey_set r0 ms i m hm).trans hproj) hmem
          | none =>
            rw [mergeLoop_cons_ghost r0 rest ms cnt unm det i hf hth hm]
            exact ih _ _ _ _ hproj hmem
        · rw [mergeLoop_cons_below r0 rest ms cnt unm det i hf hth]
          exact ih _ _ _ _ hproj hmem
      | none =>
        rw [mergeLoop_cons_none r0 rest ms cnt unm det hf]
        exact ih _ _ _ _ hproj hmem

/-- C5: the best same-year candidate is accepted only when its score
reaches `0.90`, and every rating entry whose lookup finds no acceptable
movie — below-threshold best score, or no same-year candidate at all
(best score `0`) — is recorded in the unmatched report together with its
best score, never silently dropped. -/
theorem c5_below_threshold_recorded (ratings : List Rating) (movies : List Movie)
    (r : Rating) (hr : r ∈ ratings) :
    ((find_matching_movie movies r).1 ≠ none →
      (find_matching_movie movies r).2 ≥ (9 : ℚ) / 10) ∧
    ((find_matching_movie movies r).1 = none →
      (⟨ratingTitleRaw r, yearValStr r.year, (find_matching_movie movies r).2⟩ : UnmatchedEntry)
        ∈ (merge ratings movies).1.unmatched) := by
  constructor
  · intro hne
    rw [← mkRat_nine_tenths]
    exact find_some_threshold movies r hne
  · intro hnone
    have h := mergeLoop_unmatched_mem movies r hnone ratings movies 0 [] [] rfl hr
    have hunm : (merge ratings movies).1.unmatched =
        (mergeLoop ratings movies 0 [] []).2.2.1 := rfl
    rw [hunm]
    exact h

/-- Witness for `c5_below_threshold_recorded`: with no movies at all, the
`"Alien"` rating has best score `0` and lands in the unmatched report. -/
theorem c5_witness :
    (⟨"Alien", "1979", (0 : ℚ)⟩ : UnmatchedEntry) ∈ (merge [alienRating] []).1.unmatched := by
  have h := (c5_below_threshold_recorded [alienRating] [] alienRating
    (List.mem_singleton.mpr rfl)).2 (by decide)
  have he : (⟨ratingTitleRaw alienRating, yearValStr alienRating.year,
      (find_matching_movie [] alienRating).2⟩ : UnmatchedEntry) =
      ⟨"Alien", "1979", (0 : ℚ)⟩ := by decide
  rw [he] at h
  exact h

/-- Through the rating loop, each movie slot either keeps its original
movie or holds a movie whose rating block was written by some rating of
the list. -/
theorem mergeLoop_track :
    ∀ (ratings : List Rating) (ms : List Movie) (cnt : Nat)
      (unm : List UnmatchedEntry) (det : List MatchDetail) (i : Nat) (m : Movie),
      ms.get? i = some m →
      ∃ m', (mergeLoop ratings ms cnt unm det).1.get? i = some m' ∧
        (m' = m ∨ ∃ r ∈ ratings, ratingBlock m' = mergedBlock r) := by
  intro ratings
  induction ratings with
  | nil =>
    intro ms cnt unm det i m hm
    exact ⟨m, hm, Or.inl rfl⟩
  | cons r0 rest ih =>
    intro ms cnt unm det i m hm
    cases hf : (find_matching_movie ms r0).1 with
    | some j =>
      by_cases hth : (find_matching_movie ms r0).2 ≥ mkRat 9 10
      · cases hj : ms.get? j with
        | some mj =>
          rw [mergeLoop_cons_matched r0 rest ms cnt unm det j mj hf hth hj]
          by_cases hij : j = i
          · subst hij
            have hmj : mj = m := by
              rw [hm] at hj
              exact (Option.some.injEq mj m ▸ hj.symm :)
            subst hmj
            have hlt : j < ms.length := by
              rw [List.get?_eq_getElem?] at hm
              exact (List.getElem?_eq_some.mp hm).1
            have hset : (ms.set j (applyRating mj r0)).get? j = some (applyRating mj r0) := by
              rw [List.get?_eq_getElem?]
              exact List.getElem?_set_self (by simpa using hlt)
            obtain ⟨m', h1, h2⟩ := ih (ms.set j (applyRating mj r0)) (cnt + 1) unm _ j
              (applyRating mj r0) hset
            refine ⟨m', h1, ?_⟩
            rcases h2 with rfl | ⟨r, hr, hb⟩
            · exact Or.inr ⟨r0, List.mem_cons_self r0 rest, rfl⟩
            · exact Or.inr ⟨r, List.mem_cons_of_mem r0 hr, hb⟩
          · have hkeep : (ms.set j (applyRating mj r0)).get? i = some m := by
              rw [List.get?_set_ne _ _ hij]
              exact hm
            obtain ⟨m', h1, h2⟩ := ih _ (cnt + 1) unm _ i m hkeep
            refine ⟨m', h1, ?_⟩
            rcases h2 with rfl | ⟨r, hr, hb⟩
            · exact Or.inl rfl
            · exact Or.inr ⟨r, List.mem_cons_of_mem r0 hr, hb⟩
        | none =>
          rw [mergeLoop_cons_ghost r0 rest ms cnt unm det j hf hth hj]
          obtain ⟨m', h1, h2⟩ := ih ms cnt unm det i m hm
          refine ⟨m', h1, ?_⟩
          rcases h2 with rfl | ⟨r, hr, hb⟩
          · exact Or.inl rfl
          · exact Or.inr ⟨r, List.mem_cons_of_mem r0 hr, hb⟩
      · rw [mergeLoop_cons_below r0 rest ms cnt unm det j hf hth]
        obtain ⟨m', h1, h2⟩ := ih ms cnt _ det i m hm
        refine ⟨m', h1, ?_⟩
        rcases h2 with rfl | ⟨r, hr, hb⟩
        · exact Or.inl rfl
        · exact Or.inr ⟨r, List.mem_cons_of_mem r0 hr, hb⟩
    | none =>
      rw [mergeLoop_cons_none r0 rest ms cnt unm det hf]
      obtain ⟨m', h1, h2⟩ := ih ms cnt _ det i m hm
      refine ⟨m', h1, ?_⟩
      rcases h2 with rfl | ⟨r, hr, hb⟩
      · exact Or.inl rfl
      · exact Or.inr ⟨r, List.mem_cons_of_mem r0 hr, hb⟩

/-- C9 (counterexample): a movie that already carries rating fields and is
never matched — here the ratings list is empty — keeps its pre-existing
values after the merge pass: its `ar` is `"5"`, not null, refuting the
claim that every never-matched movie has its rating fields explicitly set
to null / the empty string. -/
theorem c9_counterexample :
    (merge [] [prefilledMovie]).2.get? 0 = some prefilledMovie ∧
    prefilledMovie.ar = some (some "5") ∧
    prefilledMovie.ar ≠ some none ∧ prefilledMovie.rating_notes ≠ some "" := by
  exact ⟨rfl, rfl, by decide, by decide⟩

/-- C9 (amended): after the merge pass, every movie that lacked the `ar`
rating key beforehand carries all five rating fields: either the null /
empty-string block written by the fill pass (never matched), or the
sanitized block of some rating entry of the list (matched); movies that
already carried an `ar` key and are never matched keep their pre-existing
fields unchanged. -/
theorem c9_uniform_schema_amended (ratings : List Rating) (movies : List Movie)
    (i : Nat) (m : Movie) (hm : movies.get? i = some m) (har : m.ar = none) :
    ∃ m', (merge ratings movies).2.get? i = some m' ∧
      (ratingBlock m' = emptyBlock ∨ ∃ r ∈ ratings, ratingBlock m' = mergedBlock r) := by
  obtain ⟨m1, h1, h2⟩ := mergeLoop_track ratings movies 0 [] [] i m hm
  have hmerge2 : (merge ratings movies).2 =
      ((mergeLoop ratings movies 0 [] []).1).map fillEmpty := rfl
  rw [hmerge2]
  refine ⟨fillEmpty m1, ?_, ?_⟩
  · rw [List.get?_map, h1]
    rfl
  · rcases h2 with rfl | ⟨r, hr, hb⟩
    · left
      unfold fillEmpty
      rw [if_pos har]
      rfl
    · right
      refine ⟨r, hr, ?_⟩
      have har1 : ¬ m1.ar = none := by
        have har2 : m1.ar = some (sanitize_value r.ar) := congrArg (fun p => p.1) hb
        rw [har2]
        simp
      unfold fillEmpty
      rw [if_neg har1]
      exact hb

/-- Witness for `c9_uniform_schema_amended`: with no ratings, the bare
movie ends up with the explicit null/empty block. -/
theorem c9_witness :
    ∃ m', (merge [] [alienMovie]).2.get? 0 = some m' ∧
      (ratingBlock m' = emptyBlock ∨
        ∃ r ∈ ([] : List Rating), ratingBlock m' = mergedBlock r) :=
  c9_uniform_schema_amended [] [alienMovie] 0 alienMovie rfl rfl

/-- A character not in the list is not `contains`-detected. -/
theorem contains_eq_false_of_not_mem {cs : List Char} {a : Char} (h : a ∉ cs) :
    cs.contains a = false := by
  simp only [List.contains, List.elem_eq_mem, decide_eq_false_iff_not]
  exact h

/-- `splitOnChar` on a separator-free list is the singleton chunk. -/
theorem splitOnChar_of_not_mem (c : Char) :
    ∀ (l : List Char), c ∉ l → splitOnChar c l = [l] := by
  intro l
  induction l with
  | nil => intro h; rfl
  | cons x rest ih =>
    intro h
    have hx : ¬ x = c := fun he => h (he ▸ List.mem_cons_self x rest)
    have hrest : c ∉ rest := fun hm => h (List.mem_cons_of_mem x hm)
    unfold splitOnChar
    rw [if_neg hx, ih hrest]

/-- `splitOnChar` cuts at the first separator when the prefix is
separator-free. -/
theorem splitOnChar_append (c : Char) :
    ∀ (a b : List Char), c ∉ a →
      splitOnChar c (a ++ c :: b) = a :: splitOnChar c b := by
  intro a
  induction a with
  | nil =>
    intro b _
    simp [splitOnChar]
  | cons x rest ih =>
    intro b h
    have hx : ¬ x = c := fun he => h (he ▸ List.mem_cons_self x rest)
    have hrest : c ∉ rest := fun hm => h (List.mem_cons_of_mem x hm)
    simp only [List.cons_append, splitOnChar, List.append_eq, if_neg hx]
    rw [ih b hrest]

/-- `dropWhile` is the identity when no element satisfies the
predicate. -/
theorem dropWhile_eq_self_of_all (p : Char → Bool) (l : List Char)
    (h : ∀ c ∈ l, p c = false) : l.dropWhile p = l := by
  cases l with
  | nil => rfl
  | cons x rest =>
    rw [List.dropWhile_cons, if_neg]
    rw [h x (List.mem_cons_self x rest)]
    exact Bool.false_ne_true

/-- `str.strip()` is the identity on whitespace-free strings. -/
theorem pyStrip_eq_self (s : String) (h : ∀ c ∈ s.data, pyIsSpace c = false) :
    pyStrip s = s := by
  unfold pyStrip
  rw [dropWhile_eq_self_of_all pyIsSpace s.data h,
      dropWhile_eq_self_of_all pyIsSpace s.data.reverse
        (fun c hc => h c (List.mem_reverse.mp hc)),
      List.reverse_reverse]

/-- Two characters with different `isDigit` values differ. -/
theorem isDigit_ne {c d : Char} (h : c.isDigit = true) (hd : d.isDigit = false) :
    c ≠ d := by
  intro he
  subst he
  rw [h] at hd
  exact Bool.noConfusion hd

/-- Digits are not Python whitespace. -/
theorem pyIsSpace_eq_false_of_isDigit {c : Char} (h : c.isDigit = true) :
    pyIsSpace c = false := by
  have h1 : c ∉ pyWhitespace := by
    intro hmem
    fin_cases hmem <;> exact absurd h (by decide)
  exact contains_eq_false_of_not_mem h1

/-- C6 (amended): the cleaner performs no colon split.  For a
well-formed label `"N:T(YYYY)"` (no `(` in `N` or `T`, `YYYY` four
digits) outside the transcript mapping, the row comes out with episode
number `none` (numbers come only from the transcript-derived mapping),
episode title equal to the quote-stripped, trimmed `"N:T"` — the `N:`
prefix stays inside the title — and year `YYYY`, extracted from the first
parenthesis as the claim states. -/
theorem c6_amended (n t y : String)
    (hn : '(' ∉ n.data) (ht : '(' ∉ t.data)
    (hy : ∀ c ∈ y.data, c.isDigit = true) (hylen : y.data.length = 4) :
    cleanRow none (n ++ ":" ++ t ++ "(" ++ y ++ ")") =
      (none, pyStrip (clean_episode_name (n ++ ":" ++ t)), some y) := by
  have hmk : ∀ l : List Char, (String.mk l).data = l := fun _ => rfl
  have heta : ∀ s : String, String.mk s.data = s := fun _ => rfl
  have hqfilter : ∀ (cs : List Char), (∀ d ∈ cs, d.isDigit = false) →
      List.filter (fun c => !cs.contains c) y.data = y.data := by
    intro cs hcs
    apply List.filter_eq_self.mpr
    intro a ha
    have hmem : a ∉ cs := by
      intro hm
      have hda := hcs a hm
      rw [hy a ha] at hda
      exact Bool.noConfusion hda
    rw [contains_eq_false_of_not_mem hmem]
    rfl
  have hdata : (clean_episode_name (n ++ ":" ++ t ++ "(" ++ y ++ ")")).data =
      (clean_episode_name (n ++ ":" ++ t)).data ++ '(' :: (y.data ++ [')']) := by
    simp only [clean_episode_name, removeChars, hmk, String.data_append, List.filter_append]
    rw [hqfilter [Char.ofNat 39, Char.ofNat 34] (by decide)]
    have h1 : List.filter (fun c => !([Char.ofNat 39, Char.ofNat 34] : List Char).contains c)
        (("(" : String).data) = ['('] := rfl
    have h2 : List.filter (fun c => !([Char.ofNat 39, Char.ofNat 34] : List Char).contains c)
        ((")" : String).data) = [')'] := rfl
    rw [h1, h2]
    simp [List.append_assoc]
  have hpre : '(' ∉ (clean_episode_name (n ++ ":" ++ t)).data := by
    intro hmem
    simp only [clean_episode_name, removeChars, hmk, String.data_append] at hmem
    have hmem2 := List.mem_of_mem_filter hmem
    rcases List.mem_append.mp hmem2 with hl | hr
    · rcases List.mem_append.mp hl with hll | hlr
      · exact hn hll
      · exact absurd hlr (by decide)
    · exact ht hr
  have hrest : '(' ∉ (y.data ++ [')']) := by
    intro hmem
    rcases List.mem_append.mp hmem with hmy | hp
    · exact absurd (hy _ hmy) (by decide)
    · exact absurd hp (by decide)
  have hys : pyStrip y = y :=
    pyStrip_eq_self y (fun c hc => pyIsSpace_eq_false_of_isDigit (hy c hc))
  have hext : extract_years_row (clean_episode_name (n ++ ":" ++ t ++ "(" ++ y ++ ")")) =
      (pyStrip (clean_episode_name (n ++ ":" ++ t)), some y) := by
    unfold extract_years_row
    rw [hdata, splitOnChar_append '(' _ _ hpre, splitOnChar_of_not_mem '(' _ hrest]
    simp only [List.map_cons, List.map_nil, List.headD_cons, List.get?_cons_succ,
      List.get?_cons_zero, heta]
    simp only [Prod.mk.injEq, true_and]
    have hrc : removeChars [')'] (String.mk (y.data ++ [')'])) = y := by
      unfold removeChars
      rw [hmk, List.filter_append, hqfilter [')'] (by decide)]
      have h3 : List.filter (fun c => !([')'] : List Char).contains c) [')'] = [] := rfl
      rw [h3, List.append_nil, heta]
    show Option.map (fun p => pyStrip (removeChars [')'] p)) (some (String.mk (y.data ++ [')'])))
        = some y
    rw [Option.map_some', hrc, hys]
  have hrow : cleanRow none (n ++ ":" ++ t ++ "(" ++ y ++ ")") =
      (none, extract_years_row (clean_episode_name (n ++ ":" ++ t ++ "(" ++ y ++ ")"))) := rfl
  rw [hrow, hext]

/-- Witness for `c6_amended` at the label `"123: Alien (1979)"`. -/
theorem c6_amended_witness :
    cleanRow none ("123" ++ ":" ++ " Alien " ++ "(" ++ "1979" ++ ")") =
      (none, pyStrip (clean_episode_name ("123" ++ ":" ++ " Alien ")), some "1979") :=
  c6_amended "123" " Alien " "1979" (by decide) (by decide) (by decide) (by decide)

end FriendlyFire
